import Mathlib

/-!
Verification of the incremental static-site builder in scripts/yasb.py
("Yet Another Static Blogger").

Shallow embedding conventions:
* The filesystem is a function from path strings to optional
  last-modified times (`none` means the path does not exist); mtimes are
  natural numbers (seconds).
* YAML parsing, markdown rendering, Jinja template expansion, the rich
  progress UI and directory creation are external collaborators; the
  build is modelled as the list of write/copy events it performs.
* Python string operations used by the source (`str.replace`,
  `str.split`, `str.startswith`, `str.endswith`, `os.path.join`,
  `re.findall(r'pages/(.*)', path)[0]`) are re-implemented faithfully on
  character lists so that they are executable and kernel-reducible.
* `functools.cache` on `get_timestamp` is modelled by explicit threading
  of a cache (association list) together with a count of the filesystem
  stats performed.
-/

namespace Yasb

/-- Python str.startswith, on the underlying character lists. -/
def pyStartsWith (s pre : String) : Bool :=
  pre.data.isPrefixOf s.data

/-- Python str.endswith, on the underlying character lists. -/
def pyEndsWith (s suf : String) : Bool :=
  suf.data.isSuffixOf s.data

/-- posixpath.join for two components, as CPython implements it: an
absolute second component replaces the first; otherwise the components
are joined with a single separator (an empty or slash-terminated first
component gets no extra separator). -/
def osPathJoin2 (a b : String) : String :=
  if pyStartsWith b "/" then b
  else if a = "" then b
  else if pyEndsWith a "/" then a ++ b
  else a ++ "/" ++ b

/-- os.path.join over its (nonempty, in the source) argument list.
Python raises TypeError on an empty argument list; the source never
calls it that way, and we return "" there. -/
def osPathJoinList : List String → String
  | [] => ""
  | a :: rest => rest.foldl osPathJoin2 a

/-- The characters after the first occurrence of the needle nd in the
haystack, or none when nd never occurs.  This models
re.findall(r'pages/(.*)', path)[0] from Page.load line 97: the regex
matches at the leftmost occurrence of "pages/" and the greedy group
captures the whole remainder of the line. -/
def afterFirst (nd : List Char) : List Char → Option (List Char)
  | [] => if nd.isPrefixOf ([] : List Char) then some [] else none
  | c :: t =>
    if nd.isPrefixOf (c :: t) then some (List.drop nd.length (c :: t))
    else afterFirst nd t

/-- Python str.split(sep) for a one-character separator: always returns
at least one (possibly empty) piece. -/
def splitOnChar (sep : Char) : List Char → List (List Char)
  | [] => [[]]
  | c :: t =>
    match splitOnChar sep t with
    | [] => [[]]
    | r :: rs => if c = sep then [] :: r :: rs else (c :: r) :: rs

/-- Fueled worker for Python str.replace (structural recursion on the
fuel keeps it kernel-reducible). -/
def pyReplaceAux (nd rep : List Char) : Nat → List Char → List Char
  | 0, l => l
  | _ + 1, [] => []
  | fuel + 1, c :: t =>
    if nd ≠ [] ∧ nd.isPrefixOf (c :: t) then
      rep ++ pyReplaceAux nd rep fuel (List.drop (nd.length - 1) t)
    else
      c :: pyReplaceAux nd rep fuel t

/-- Python str.replace: rewrites every non-overlapping occurrence of nd,
scanning left to right.  (The source only calls it with the nonempty
needle ".yaml"; an empty needle is treated as no-op here.) -/
def pyReplace (s nd rep : String) : String :=
  ⟨pyReplaceAux nd.data rep.data s.data.length s.data⟩

/-- Filesystem model: last-modified time per path; none means the path
does not exist. -/
abbrev FS := String → Option Nat

/-- get_timestamp (yasb.py lines 323-328) without the functools.cache
wrapper: os.path.getmtime, with FileNotFoundError mapped to 0 (the
epoch). It is a total function of the filesystem state. -/
def get_timestamp (fs : FS) (path : String) : Nat :=
  (fs path).getD 0

/-- The functools.cache memo table for get_timestamp. -/
abbrev Cache := List (String × Nat)

def lookupCache : Cache → String → Option Nat
  | [], _ => none
  | (q, v) :: rest, p => if q = p then some v else lookupCache rest p

/-- get_timestamp with its functools.cache wrapper made explicit:
returns the value, the cache afterwards, and the number of filesystem
stats performed by this call (0 on a cache hit, 1 on a miss). -/
def get_timestamp_cached (fs : FS) (c : Cache) (p : String) : Nat × Cache × Nat :=
  match lookupCache c p with
  | some v => (v, c, 0)
  | none => ((fs p).getD 0, (p, (fs p).getD 0) :: c, 1)

/-- Number of filesystem stats performed on path p while executing the
query sequence qs through the cached get_timestamp, starting from
cache c. -/
def runStats (fs : FS) (c : Cache) : List String → String → Nat
  | [], _ => 0
  | q :: qs, p =>
    (if q = p then (get_timestamp_cached fs c q).2.2 else 0) +
      runStats fs (get_timestamp_cached fs c q).2.1 qs p

/-- Civil date (year, month, day) of a Unix timestamp in seconds,
modelling datetime.datetime.fromtimestamp at UTC offset 0 (the standard
days-to-civil conversion). -/
def civilFromTimestamp (ts : Nat) : Nat × Nat × Nat :=
  let z := ts / 86400 + 719468
  let era := z / 146097
  let doe := z % 146097
  let yoe := (doe - doe / 1460 + doe / 36524 - doe / 146096) / 365
  let doy := doe - (365 * yoe + yoe / 4 - yoe / 100)
  let mp := (5 * doy + 2) / 153
  let d := doy - (153 * mp + 2) / 5 + 1
  let m := if mp < 10 then mp + 3 else mp - 9
  let y := yoe + era * 400 + (if m ≤ 2 then 1 else 0)
  (y, m, d)

/-- Zero-padded two-digit decimal rendering. -/
def pad2 (n : Nat) : String :=
  if n < 10 then "0" ++ toString n else toString n

/-- datetime.datetime.fromtimestamp(ts).strftime of the year-month-day
pattern, as used by Page.load line 90. -/
def formatYMD (ts : Nat) : String :=
  let c := civilFromTimestamp ts
  toString c.1 ++ "-" ++ pad2 c.2.1 ++ "-" ++ pad2 c.2.2

/-- Exceptions Page.load can raise: FileNotFoundError from open() on a
missing descriptor or external file, and IndexError from
re.findall(...)[0] when the descriptor path has no "pages/" segment. -/
inductive LoadError where
  | missingSource (path : String)
  | noPagesMatch
deriving DecidableEq, Repr

/-- The raw mapping yaml.safe_load produces for a page descriptor
(title and body are required by the Page dataclass; external still maps
name to file path at this stage; parsed external content is abstracted
away since no claim concerns it). -/
structure Raw where
  title : String
  body : String
  internal : Option (List (String × String)) := none
  external : Option (List (String × String)) := none
  date : Option String := none
  tags : Option (List String) := none
  extensions : Option (List String) := none
  navigation : Option (List (String × String)) := none
deriving DecidableEq, Repr

/-- The Page dataclass (yasb.py lines 36-54); external keeps the
name-to-path mapping, its parsed contents being out of scope. -/
structure Page where
  title : String
  internal : List (String × String)
  external : List (String × String)
  body : String
  date : String
  extensions : List String
  tags : List String
  path : List String
  sources : List String
  link : String
  navigation : Option (List (String × String)) := none
deriving DecidableEq, Repr, Inhabited

/-- Site.DEFAULT_EXTENSIONS, with the two extension objects represented
by their registry names. -/
def DEFAULT_EXTENSIONS : List String :=
  ["abbr", "def_list", "fenced_code", "footnotes", "md_in_html", "tables",
   "codehilite", "toc"]

/-- The external-data loop of Page.load (lines 78-81): each referenced
file is opened in order (raising on the first missing one) and its path
is appended to the source list; returns those paths in order. -/
def loadExternals (fs : FS) : List (String × String) → Except LoadError (List String)
  | [] => .ok []
  | (_, v) :: rest =>
    if (fs v).isNone then .error (.missingSource v)
    else
      match loadExternals fs rest with
      | .error e => .error e
      | .ok vs => .ok (v :: vs)

/-- Page.load (yasb.py lines 65-107).  YAML parsing is abstracted: raw
is the already-parsed mapping of the descriptor file; fs supplies file
existence and mtimes.  Steps, in source order: open the descriptor
(fails when missing), seed sources with the descriptor path, load each
external file (appending its path to sources), default internal, default
date to the descriptor mtime formatted as a calendar date, default tags,
split the path text after "pages/" into components, build the extension
list, and derive the link by joining the components and replacing
".yaml" with ".html". -/
def Page.load (fs : FS) (raw : Raw) (path : String) : Except LoadError Page :=
  if (fs path).isNone then .error (.missingSource path)
  else
    match loadExternals fs (raw.external.getD []) with
    | .error e => .error e
    | .ok extPaths =>
      let sources := path :: extPaths
      let internal := raw.internal.getD []
      let date :=
        match raw.date with
        | some d => d
        | none => formatYMD (get_timestamp fs path)
      let tags := raw.tags.getD []
      match afterFirst ("pages/".data) path.data with
      | none => .error .noPagesMatch
      | some rest =>
        let segs := (splitOnChar '/' rest).map (fun l => (⟨l⟩ : String))
        let exts := DEFAULT_EXTENSIONS ++ raw.extensions.getD []
        let link := pyReplace (osPathJoinList segs) ".yaml" ".html"
        .ok {
          title := raw.title
          internal := internal
          external := raw.external.getD []
          body := raw.body
          date := date
          extensions := exts
          tags := tags
          path := segs
          sources := sources
          link := link
          navigation := raw.navigation }

/-- The Site dataclass (yasb.py lines 122-141); the lazily computed
page and template lists are carried as the fields backing those
properties, and pfx stands for the source's URL-prefix field. -/
structure Site where
  title : String
  navigation : Option (List (String × String)) := none
  pfx : Option String := none
  path : String := "."
  _pages : List Page := []
  _templates : List String := []
deriving DecidableEq, Repr

def Site.public_path (s : Site) : String := osPathJoin2 s.path "public"

def Site.static_path (s : Site) : String := osPathJoin2 s.path "static"

/-- Observable filesystem mutations Site.build performs: rendering a
page to its target file, or copying a static asset (shutil.copyfile,
byte-exact by contract) to its target. -/
inductive Event where
  | write (target : String)
  | copy (src target : String)
deriving DecidableEq, Repr

/-- The Python max over the get_timestamp values of a path list, with 0
for the empty list (Python max would raise there; the source only
evaluates it on nonempty lists). -/
def maxTimestamp (fs : FS) (paths : List String) : Nat :=
  (paths.map (get_timestamp fs)).foldl max 0

/-- target_path of a page (yasb.py line 272): join the public path with
the page's path components and replace ".yaml" with ".html". -/
def pageTargetPath (s : Site) (pg : Page) : String :=
  pyReplace (osPathJoinList (s.public_path :: pg.path)) ".yaml" ".html"

/-- target_path of a static file (yasb.py line 296): the public path
joined with the full walk-relative source path. -/
def staticTargetPath (s : Site) (staticFile : String) : String :=
  osPathJoin2 s.public_path staticFile

/-- Site.build (yasb.py lines 262-309) as the list of write/copy events
it performs, in order.  staticWalk is the os.walk enumeration of
static_path that search_files yields (the filesystem walk itself is
abstracted as this input); the swap-file filter and both staleness
comparisons follow the source.  Progress reporting and makedirs are
omitted (no observable file content effect). -/
def Site.build (fs : FS) (s : Site) (staticWalk : List String) : List Event :=
  let templates_timestamp := maxTimestamp fs s._templates
  let pageEvents := s._pages.filterMap (fun page =>
    let target_path := pageTargetPath s page
    let sources_timestamp := maxTimestamp fs page.sources
    let target_timestamp := get_timestamp fs target_path
    if sources_timestamp > target_timestamp ∨ templates_timestamp > target_timestamp then
      some (Event.write target_path)
    else none)
  let static_paths := staticWalk.filter (fun p => !pyEndsWith p ".swp")
  let staticEvents := static_paths.filterMap (fun static_path =>
    let target_path := staticTargetPath s static_path
    if get_timestamp fs static_path > get_timestamp fs target_path then
      some (Event.copy static_path target_path)
    else none)
  pageEvents ++ staticEvents

/-- The build_link Jinja filter (yasb.py lines 314-316). -/
def build_link (path : List String) : String :=
  pyReplace (osPathJoinList path) ".yaml" ".html"

/-- Spec-side helper for comparing path strings as locations: the
segments of a path ignoring empty and single-dot components. -/
def normSegments (s : String) : List String :=
  ((splitOnChar '/' s.data).map (fun l => (⟨l⟩ : String))).filter
    (fun seg => seg != "" && seg != ".")

/-! Concrete example inputs used by the witnesses and counterexamples. -/

/-- Filesystem during a first build run: one descriptor with mtime 5. -/
def fsRun1 : FS := fun p => if p = "pages/a.yaml" then some 5 else none

/-- The same filesystem after the descriptor is touched to mtime 10
between two runs. -/
def fsRun2 : FS := fun p => if p = "pages/a.yaml" then some 10 else none

/-- A minimal parsed descriptor mapping (only the required fields). -/
def rawPlain : Raw := { title := "t", body := "b" }

/-- Filesystem containing just the post-1 descriptor. -/
def fsC5 : FS := fun p => if p = "pages/blog/post-1.yaml" then some 100 else none

/-- The page loaded from the post-1 descriptor. -/
def pgC5 : Page := (Page.load fsC5 rawPlain "pages/blog/post-1.yaml").toOption.getD default

/-- Filesystem in which the descriptor's mtime is midnight on the first
of May 2023. -/
def fsC8 : FS := fun p => if p = "pages/a.yaml" then some 1682899200 else none

/-- The page loaded from that descriptor (no date field given). -/
def pgC8 : Page := (Page.load fsC8 rawPlain "pages/a.yaml").toOption.getD default

/-- Filesystem whose only file lives outside any pages directory. -/
def fsC9 : FS := fun p => if p = "content/x.yaml" then some 100 else none

/-- Filesystem with a descriptor whose directory name itself ends in
".yaml". -/
def fsC10 : FS := fun p => if p = "pages/dir.yaml/post.yaml" then some 100 else none

/-- The page loaded from that descriptor. -/
def pgC10 : Page := (Page.load fsC10 rawPlain "pages/dir.yaml/post.yaml").toOption.getD default

/-- A concrete loaded page for the build examples. -/
def pgW : Page :=
  { title := "t", internal := [], external := [], body := "b",
    date := "2023-05-01", extensions := DEFAULT_EXTENSIONS, tags := [],
    path := ["a.yaml"], sources := ["./pages/a.yaml"], link := "a.html" }

/-- A one-page site with one template. -/
def siteW : Site :=
  { title := "site", _pages := [pgW], _templates := ["./templates/base.html"] }

/-- Filesystem before a first build: the output does not exist yet. -/
def fsW : FS := fun p =>
  if p = "./pages/a.yaml" then some 50
  else if p = "./templates/base.html" then some 10
  else none

/-- Filesystem after a completed first build: the page output and the
copied asset are newer than all their inputs. -/
def fsC2 : FS := fun p =>
  if p = "./pages/a.yaml" then some 50
  else if p = "./templates/base.html" then some 10
  else if p = "./public/a.html" then some 60
  else if p = "./static/x.css" then some 5
  else if p = "./public/./static/x.css" then some 7
  else none

/-- A site with no pages, used for the asset-pass examples. -/
def siteC4 : Site := { title := "site" }

/-- A fresh output tree: only the star icon asset exists. -/
def fsC4 : FS := fun p => if p = "./static/ico/star.svg" then some 100 else none

/-- A descriptor mapping referencing one external data file. -/
def rawC7 : Raw := { title := "t", body := "b", external := some [("d", "data/x.yaml")] }

/-- Filesystem containing that descriptor and its external file. -/
def fsC7 : FS := fun p =>
  if p = "pages/a.yaml" then some 50
  else if p = "data/x.yaml" then some 40
  else none

/-- The page loaded from that descriptor. -/
def pgC7 : Page := (Page.load fsC7 rawC7 "pages/a.yaml").toOption.getD default

/-! Helper lemmas. -/

theorem foldl_max_gt (l : List Nat) (a t : Nat) :
    l.foldl max a > t ↔ a > t ∨ ∃ x ∈ l, x > t := by
  induction l generalizing a with
  | nil => simp
  | cons c l ih =>
    simp only [List.foldl_cons]
    rw [ih]
    constructor
    · rintro (h | ⟨x, hx, hxt⟩)
      · rcases lt_max_iff.mp h with h | h
        · exact Or.inl h
        · exact Or.inr ⟨c, List.mem_cons_self c l, h⟩
      · exact Or.inr ⟨x, List.mem_cons_of_mem c hx, hxt⟩
    · rintro (h | ⟨x, hx, hxt⟩)
      · exact Or.inl (lt_max_iff.mpr (Or.inl h))
      · rcases List.mem_cons.mp hx with rfl | hx
        · exact Or.inl (lt_max_iff.mpr (Or.inr hxt))
        · exact Or.inr ⟨x, hx, hxt⟩

theorem maxTimestamp_gt_iff (fs : FS) (l : List String) (t : Nat) :
    maxTimestamp fs l > t ↔ ∃ p ∈ l, get_timestamp fs p > t := by
  unfold maxTimestamp
  rw [foldl_max_gt]
  simp [List.mem_map]

theorem lookupCache_mono (fs : FS) (c : Cache) (q p : String) (v : Nat)
    (h : lookupCache c p = some v) :
    lookupCache (get_timestamp_cached fs c q).2.1 p = some v := by
  unfold get_timestamp_cached
  cases hq : lookupCache c q with
  | some w => simpa using h
  | none =>
    simp only [lookupCache]
    by_cases hqp : q = p
    · subst hqp; rw [h] at hq; cases hq
    · rw [if_neg hqp]; exact h

theorem runStats_of_cached (fs : FS) (c : Cache) (qs : List String) (p : String) (v : Nat)
    (h : lookupCache c p = some v) : runStats fs c qs p = 0 := by
  induction qs generalizing c v with
  | nil => rfl
  | cons q qs ih =>
    have h2 := lookupCache_mono fs c q p v h
    unfold runStats
    by_cases hqp : q = p
    · rw [hqp]
      have hgtc : get_timestamp_cached fs c p = (v, c, 0) := by
        unfold get_timestamp_cached; rw [h]
      rw [hgtc]
      simpa using ih c v h
    · rw [if_neg hqp, Nat.zero_add]
      exact ih _ v h2

theorem runStats_le_one (fs : FS) (c : Cache) (qs : List String) (p : String)
    (hun : lookupCache c p = none) : runStats fs c qs p ≤ 1 := by
  induction qs generalizing c with
  | nil => exact Nat.zero_le 1
  | cons q qs ih =>
    unfold runStats
    by_cases hqp : q = p
    · rw [hqp]
      have hgtc : get_timestamp_cached fs c p =
          ((fs p).getD 0, (p, (fs p).getD 0) :: c, 1) := by
        unfold get_timestamp_cached; rw [hun]
      rw [hgtc]
      have h0 : runStats fs ((p, (fs p).getD 0) :: c) qs p = 0 :=
        runStats_of_cached fs ((p, (fs p).getD 0) :: c) qs p ((fs p).getD 0)
          (by simp [lookupCache])
      simp [h0]
    · rw [if_neg hqp, Nat.zero_add]
      refine ih _ ?_
      unfold get_timestamp_cached
      cases hq : lookupCache c q with
      | some w => simpa using hun
      | none => simp only [lookupCache, if_neg hqp]; exact hun

/-! Claim theorems. -/

/-- Claim C3: get_timestamp returns the filesystem mtime when the path
exists and 0 (the epoch) when it does not — it is a total function,
never failing; and within a single run (cache threaded from empty) a
repeated query of the same path returns the same value without a new
stat, with at most one stat per distinct path over any query sequence. -/
theorem get_timestamp_total_memoized (fs : FS) (p : String) :
    (∀ m, fs p = some m → (get_timestamp_cached fs [] p).1 = m) ∧
    (fs p = none → (get_timestamp_cached fs [] p).1 = 0) ∧
    (∀ c, (get_timestamp_cached fs (get_timestamp_cached fs c p).2.1 p).1 =
            (get_timestamp_cached fs c p).1 ∧
          (get_timestamp_cached fs (get_timestamp_cached fs c p).2.1 p).2.2 = 0) ∧
    (∀ qs, runStats fs [] qs p ≤ 1) := by
  refine ⟨?_, ?_, ?_, ?_⟩
  · intro m hm
    simp [get_timestamp_cached, lookupCache, hm]
  · intro hm
    simp [get_timestamp_cached, lookupCache, hm]
  · intro c
    unfold get_timestamp_cached
    cases h : lookupCache c p with
    | some v => simp [h]
    | none => simp [lookupCache]
  · intro qs
    exact runStats_le_one fs [] qs p rfl

theorem get_timestamp_total_memoized_witness :
    (get_timestamp_cached fsRun1 [] "pages/a.yaml").1 = 5 ∧
    runStats fsRun1 [] ["pages/a.yaml", "pages/a.yaml"] "pages/a.yaml" ≤ 1 := by
  have h := get_timestamp_total_memoized fsRun1 "pages/a.yaml"
  exact ⟨h.1 5 (by decide), h.2.2.2 ["pages/a.yaml", "pages/a.yaml"]⟩

/-- Claim C6 counterexample: the functools cache survives across build
runs in one process.  Run one stats pages/a.yaml (mtime 5); the file is
then touched to mtime 10; the first query of the second run (which, as
in the source, reuses the process-wide cache) still returns 5, not the
filesystem state 10. -/
theorem cache_shared_across_runs_cex :
    (get_timestamp_cached fsRun2 (get_timestamp_cached fsRun1 [] "pages/a.yaml").2.1
        "pages/a.yaml").1 = 5 ∧
    get_timestamp fsRun2 "pages/a.yaml" = 10 ∧
    (get_timestamp_cached fsRun2 (get_timestamp_cached fsRun1 [] "pages/a.yaml").2.1
        "pages/a.yaml").1 ≠ get_timestamp fsRun2 "pages/a.yaml" := by
  refine ⟨rfl, rfl, ?_⟩
  decide

/-- Claim C6 (amended): the timestamp cache is scoped to the process,
not to a build run.  A run starting with the process-fresh (empty)
cache sees the filesystem state, but a second build in the same process
reuses the value memoized by the first run, whatever the filesystem
says by then. -/
theorem cache_process_scoped (fs1 fs2 : FS) (p : String) :
    (get_timestamp_cached fs1 [] p).1 = get_timestamp fs1 p ∧
    (get_timestamp_cached fs2 (get_timestamp_cached fs1 [] p).2.1 p).1 =
      get_timestamp fs1 p := by
  constructor
  · simp [get_timestamp_cached, lookupCache, get_timestamp]
  · simp [get_timestamp_cached, lookupCache, get_timestamp]

/-- Claim C1: Site.build writes a page's output file exactly when some
file in the page's source set, or some template, has a timestamp
greater than the output's timestamp (equivalently: when the maximum of
the timestamps over either set exceeds it); when neither holds, no
write to that output occurs.  Pages are assumed to have pairwise
distinct output paths, as on any real pages tree. -/
theorem build_write_iff (fs : FS) (s : Site) (staticWalk : List String) (pg : Page)
    (hmem : pg ∈ s._pages)
    (huniq : ∀ q ∈ s._pages, pageTargetPath s q = pageTargetPath s pg → q = pg) :
    Event.write (pageTargetPath s pg) ∈ Site.build fs s staticWalk ↔
      ((∃ src ∈ pg.sources,
          get_timestamp fs src > get_timestamp fs (pageTargetPath s pg)) ∨
       (∃ t ∈ s._templates,
          get_timestamp fs t > get_timestamp fs (pageTargetPath s pg))) := by
  simp only [Site.build]
  rw [List.mem_append]
  constructor
  · rintro (h | h)
    · rw [List.mem_filterMap] at h
      obtain ⟨q, hq, hfq⟩ := h
      by_cases hc : maxTimestamp fs q.sources > get_timestamp fs (pageTargetPath s q) ∨
          maxTimestamp fs s._templates > get_timestamp fs (pageTargetPath s q)
      · rw [if_pos hc] at hfq
        simp only [Option.some.injEq, Event.write.injEq] at hfq
        have hqeq := huniq q hq hfq
        subst hqeq
        rcases hc with hc | hc
        · exact Or.inl ((maxTimestamp_gt_iff fs q.sources _).mp hc)
        · exact Or.inr ((maxTimestamp_gt_iff fs s._templates _).mp hc)
      · rw [if_neg hc] at hfq
        cases hfq
    · rw [List.mem_filterMap] at h
      obtain ⟨g, hg, hfg⟩ := h
      by_cases hc : get_timestamp fs g > get_timestamp fs (staticTargetPath s g)
      · rw [if_pos hc] at hfg
        cases hfg
      · rw [if_neg hc] at hfg
        cases hfg
  · intro h
    left
    rw [List.mem_filterMap]
    refine ⟨pg, hmem, ?_⟩
    have hc : maxTimestamp fs pg.sources > get_timestamp fs (pageTargetPath s pg) ∨
        maxTimestamp fs s._templates > get_timestamp fs (pageTargetPath s pg) := by
      rcases h with h | h
      · exact Or.inl ((maxTimestamp_gt_iff fs pg.sources _).mpr h)
      · exact Or.inr ((maxTimestamp_gt_iff fs s._templates _).mpr h)
    rw [if_pos hc]

theorem build_write_iff_witness :
    Event.write (pageTargetPath siteW pgW) ∈ Site.build fsW siteW [] := by
  refine (build_write_iff fsW siteW [] pgW ?_ ?_).mpr (Or.inl ⟨"./pages/a.yaml", ?_, ?_⟩)
  · exact List.mem_cons_self pgW []
  · intro q hq _
    rcases List.mem_cons.mp hq with h | h
    · exact h
    · cases h
  · decide
  · decide

/-- Claim C2: when every page's sources and every template are no newer
than that page's output, and every static file is no newer than its
copy destination, a rebuild performs no write and no asset copy at all
(the second of two back-to-back builds does nothing). -/
theorem second_build_writes_nothing (fs : FS) (s : Site) (staticWalk : List String)
    (hpages : ∀ pg ∈ s._pages,
      (∀ src ∈ pg.sources,
         get_timestamp fs src ≤ get_timestamp fs (pageTargetPath s pg)) ∧
      (∀ t ∈ s._templates,
         get_timestamp fs t ≤ get_timestamp fs (pageTargetPath s pg)))
    (hstatic : ∀ f ∈ staticWalk,
      get_timestamp fs f ≤ get_timestamp fs (staticTargetPath s f)) :
    Site.build fs s staticWalk = [] := by
  simp only [Site.build]
  rw [List.append_eq_nil]
  constructor
  · rw [List.filterMap_eq_nil_iff]
    intro q hq
    rw [if_neg]
    rw [not_or]
    constructor
    · rw [maxTimestamp_gt_iff]
      push_neg
      exact (hpages q hq).1
    · rw [maxTimestamp_gt_iff]
      push_neg
      exact (hpages q hq).2
  · rw [List.filterMap_eq_nil_iff]
    intro f hf
    rw [if_neg]
    have h := hstatic f (List.mem_of_mem_filter hf)
    omega

theorem second_build_writes_nothing_witness :
    Site.build fsC2 siteW ["./static/x.css"] = [] := by
  exact second_build_writes_nothing fsC2 siteW ["./static/x.css"]
    (by decide) (by decide)

/-- Claim C4 counterexample: copying the star icon into a fresh output
tree does NOT produce public/ico/star.svg.  The copy target is
os.path.join(public_path, walk_path), which keeps the whole
static-relative path: the file lands at public/static/ico/star.svg. -/
theorem static_copy_destination_cex :
    Site.build fsC4 siteC4 ["./static/ico/star.svg"] =
      [Event.copy "./static/ico/star.svg" "./public/./static/ico/star.svg"] ∧
    normSegments "./public/./static/ico/star.svg" =
      ["public", "static", "ico", "star.svg"] ∧
    normSegments "./public/./static/ico/star.svg" ≠ normSegments "public/ico/star.svg" := by
  refine ⟨rfl, rfl, ?_⟩
  decide

/-- Claim C4 (amended): for every file of the static walk, the asset
pass copies it (byte-exactly, via shutil.copyfile) to
os.path.join(outputRoot, sourcePath) — which places it under
public/static/..., not directly under public/ — if and only if the file
does not end in the editor swap-file suffix ".swp" and the source's
timestamp exceeds the destination's; so a fresh output tree receives
the copy and an immediate second build copies nothing. -/
theorem static_copy_iff (fs : FS) (s : Site) (staticWalk : List String) (f : String)
    (hmem : f ∈ staticWalk) :
    Event.copy f (staticTargetPath s f) ∈ Site.build fs s staticWalk ↔
      (pyEndsWith f ".swp" = false ∧
       get_timestamp fs f > get_timestamp fs (staticTargetPath s f)) := by
  simp only [Site.build]
  rw [List.mem_append]
  constructor
  · rintro (h | h)
    · rw [List.mem_filterMap] at h
      obtain ⟨q, hq, hfq⟩ := h
      by_cases hc : maxTimestamp fs q.sources > get_timestamp fs (pageTargetPath s q) ∨
          maxTimestamp fs s._templates > get_timestamp fs (pageTargetPath s q)
      · rw [if_pos hc] at hfq
        cases hfq
      · rw [if_neg hc] at hfq
        cases hfq
    · rw [List.mem_filterMap] at h
      obtain ⟨g, hg, hfg⟩ := h
      by_cases hc : get_timestamp fs g > get_timestamp fs (staticTargetPath s g)
      · rw [if_pos hc] at hfg
        simp only [Option.some.injEq, Event.copy.injEq] at hfg
        obtain ⟨hgf, -⟩ := hfg
        subst hgf
        have := List.mem_filter.mp hg
        refine ⟨?_, hc⟩
        simpa using this.2
      · rw [if_neg hc] at hfg
        cases hfg
  · rintro ⟨hswp, hc⟩
    right
    rw [List.mem_filterMap]
    refine ⟨f, ?_, ?_⟩
    · rw [List.mem_filter]
      exact ⟨hmem, by simp [hswp]⟩
    · rw [if_pos hc]

theorem static_copy_iff_witness :
    Event.copy "./static/ico/star.svg" (staticTargetPath siteC4 "./static/ico/star.svg") ∈
      Site.build fsC4 siteC4 ["./static/ico/star.svg"] := by
  refine (static_copy_iff fsC4 siteC4 ["./static/ico/star.svg"]
    "./static/ico/star.svg" ?_).mpr (by decide)
  exact List.mem_cons_self _ []

theorem loadExternals_ok (fs : FS) (l : List (String × String)) (vs : List String)
    (h : loadExternals fs l = .ok vs) : vs = l.map Prod.snd := by
  induction l generalizing vs with
  | nil =>
    simp only [loadExternals] at h
    cases h
    rfl
  | cons kv rest ih =>
    simp only [loadExternals] at h
    by_cases hv : (fs kv.2).isNone
    · rw [if_pos hv] at h
      cases h
    · rw [if_neg hv] at h
      cases hrec : loadExternals fs rest with
      | error e => rw [hrec] at h; cases h
      | ok ws =>
        rw [hrec] at h
        cases h
        simp [ih ws hrec]

/-- Inversion of a successful Page.load: the shape of every generated
field, read off from the source's construction of the Page record. -/
theorem Page.load_ok_shape (fs : FS) (raw : Raw) (path : String) (pg : Page)
    (hok : Page.load fs raw path = Except.ok pg) :
    pg.sources = path :: (raw.external.getD []).map Prod.snd ∧
    pg.date = (match raw.date with
               | some d => d
               | none => formatYMD (get_timestamp fs path)) ∧
    (∃ rest, afterFirst ("pages/".data) path.data = some rest ∧
       pg.path = (splitOnChar '/' rest).map (fun l => (⟨l⟩ : String))) ∧
    pg.link = pyReplace (osPathJoinList pg.path) ".yaml" ".html" ∧
    pg.external = raw.external.getD [] := by
  simp only [Page.load] at hok
  by_cases hfs : (fs path).isNone
  · rw [if_pos hfs] at hok
    cases hok
  · rw [if_neg hfs] at hok
    cases hext : loadExternals fs (raw.external.getD []) with
    | error e => rw [hext] at hok; cases hok
    | ok extPaths =>
      rw [hext] at hok
      cases hrest : afterFirst ("pages/".data) path.data with
      | none => rw [hrest] at hok; cases hok
      | some rest =>
        rw [hrest] at hok
        cases hok
        have hvs := loadExternals_ok fs (raw.external.getD []) extPaths hext
        refine ⟨by rw [hvs], rfl, ⟨rest, rfl, rfl⟩, rfl, rfl⟩

/-- Claim C5 counterexample: the descriptor at pages/blog/post-1.yaml
does NOT get path segments ["blog", "post-1"] — the filename extension
is not stripped; the actual segments keep ".yaml". -/
theorem page_path_extension_not_stripped_cex :
    (Page.load fsC5 rawPlain "pages/blog/post-1.yaml").toOption.map Page.path =
      some ["blog", "post-1.yaml"] ∧
    (Page.load fsC5 rawPlain "pages/blog/post-1.yaml").toOption.map Page.path ≠
      some ["blog", "post-1"] := by
  refine ⟨rfl, ?_⟩
  decide

/-- Claim C5 (amended): Page.load derives the page's path as the
slash-separated segments of the descriptor location after "pages/",
with the filename extension retained (not stripped), and the link by
joining those segments and replacing ".yaml" with ".html": the
descriptor at pages/blog/post-1.yaml yields path segments
["blog", "post-1.yaml"] and link "blog/post-1.html". -/
theorem page_path_and_link_derivation :
    (∀ fs raw path pg rest, Page.load fs raw path = Except.ok pg →
       afterFirst ("pages/".data) path.data = some rest →
       pg.path = (splitOnChar '/' rest).map (fun l => (⟨l⟩ : String)) ∧
       pg.link = pyReplace (osPathJoinList pg.path) ".yaml" ".html") ∧
    (Page.load fsC5 rawPlain "pages/blog/post-1.yaml").toOption.map
        (fun pg => (pg.path, pg.link)) =
      some (["blog", "post-1.yaml"], "blog/post-1.html") := by
  constructor
  · intro fs raw path pg rest hok hrest
    have h := Page.load_ok_shape fs raw path pg hok
    obtain ⟨-, -, ⟨rest2, hrest2, hpath⟩, hlink, -⟩ := h
    rw [hrest] at hrest2
    cases hrest2
    exact ⟨hpath, hlink⟩
  · rfl

theorem page_path_and_link_derivation_witness :
    pgC5.path = ["blog", "post-1.yaml"] ∧ pgC5.link = "blog/post-1.html" := by
  have h := (page_path_and_link_derivation).1 fsC5 rawPlain
    "pages/blog/post-1.yaml" pgC5 ("blog/post-1.yaml".data) rfl rfl
  exact ⟨by rw [h.1]; rfl, by rw [h.2, h.1]; rfl⟩

/-- Claim C7: every successfully loaded page's source list is exactly
the descriptor path followed by the referenced external file paths, so
it is nonempty and contains the descriptor's own path and every
external path.  (Stability over the record's lifetime holds because
nothing in the source mutates sources after load, and Page values are
immutable in this embedding.) -/
theorem sources_nonempty_complete (fs : FS) (raw : Raw) (path : String) (pg : Page)
    (hok : Page.load fs raw path = Except.ok pg) :
    pg.sources = path :: (raw.external.getD []).map Prod.snd ∧
    pg.sources ≠ [] ∧
    path ∈ pg.sources ∧
    ∀ kv ∈ raw.external.getD [], kv.2 ∈ pg.sources := by
  have h := (Page.load_ok_shape fs raw path pg hok).1
  refine ⟨h, by rw [h]; exact List.cons_ne_nil path _, by rw [h]; exact List.mem_cons_self path _, ?_⟩
  intro kv hkv
  rw [h]
  exact List.mem_cons_of_mem path (List.mem_map_of_mem Prod.snd hkv)

theorem sources_nonempty_complete_witness :
    pgC7.sources = ["pages/a.yaml", "data/x.yaml"] ∧ pgC7.sources ≠ [] := by
  have h := sources_nonempty_complete fsC7 rawC7 "pages/a.yaml" pgC7 rfl
  exact ⟨by rw [h.1]; rfl, h.2.1⟩

/-- Claim C8: a descriptor without a date field gets the descriptor
file's last-modified time, formatted as a calendar date. -/
theorem default_date_from_mtime (fs : FS) (raw : Raw) (path : String) (pg : Page)
    (hdate : raw.date = none) (hok : Page.load fs raw path = Except.ok pg) :
    pg.date = formatYMD (get_timestamp fs path) := by
  have h := (Page.load_ok_shape fs raw path pg hok).2.1
  rw [hdate] at h
  exact h

theorem default_date_from_mtime_witness :
    pgC8.date = "2023-05-01" := by
  have h := default_date_from_mtime fsC8 rawPlain "pages/a.yaml" pgC8 rfl rfl
  rw [h]
  rfl

/-- Claim C9: Page.load presupposes a "pages/" substring in the
descriptor path — every path lacking it makes load fail (the regex
match list is empty and indexing it raises), whatever the filesystem
and parsed data say; and when it is present, the path segments are the
text after the first occurrence of "pages/", split on slashes. -/
theorem pages_substring_required (fs : FS) (raw : Raw) (path : String) :
    (afterFirst ("pages/".data) path.data = none →
       ∀ pg, Page.load fs raw path ≠ Except.ok pg) ∧
    (∀ pg rest, Page.load fs raw path = Except.ok pg →
       afterFirst ("pages/".data) path.data = some rest →
       pg.path = (splitOnChar '/' rest).map (fun l => (⟨l⟩ : String))) := by
  constructor
  · intro hnone pg hok
    obtain ⟨-, -, ⟨rest, hrest, -⟩, -, -⟩ := Page.load_ok_shape fs raw path pg hok
    rw [hnone] at hrest
    cases hrest
  · intro pg rest hok hrest
    obtain ⟨-, -, ⟨rest2, hrest2, hpath⟩, -, -⟩ := Page.load_ok_shape fs raw path pg hok
    rw [hrest] at hrest2
    cases hrest2
    exact hpath

theorem pages_substring_required_witness :
    Page.load fsC9 rawPlain "content/x.yaml" ≠ Except.ok pgW ∧
    pgC5.path = ["blog", "post-1.yaml"] := by
  constructor
  · exact (pages_substring_required fsC9 rawPlain "content/x.yaml").1 (by decide) pgW
  · have h := (pages_substring_required fsC5 rawPlain "pages/blog/post-1.yaml").2
      pgC5 ("blog/post-1.yaml".data) rfl rfl
    rw [h]
    rfl

/-- Claim C10: the ".yaml" to ".html" rewriting used for links, output
paths and the build_link filter replaces every occurrence of ".yaml" in
the joined string, not only a trailing extension: for the descriptor at
pages/dir.yaml/post.yaml both the directory segment and the filename
are rewritten, in the link, in the build target path, and in
build_link. -/
theorem yaml_replaced_everywhere :
    (Page.load fsC10 rawPlain "pages/dir.yaml/post.yaml").toOption.map Page.link =
      some "dir.html/post.html" ∧
    pageTargetPath siteC4 pgC10 = "./public/dir.html/post.html" ∧
    build_link ["dir.yaml", "post.yaml"] = "dir.html/post.html" := by
  exact ⟨rfl, rfl, rfl⟩

end Yasb
